import Mathlib

/-!
Shallow embedding of the Intcode processor and the day-23 part-2 network
orchestrator from `src/day23/src/bin/part2.rs`.

Conventions of the embedding:
* `i64` values are Lean `Int`s; arithmetic that the machine performs on
  `i64` (add, multiply, relative-base accumulation) is wrapped through
  `wrapI64`, the two's-complement reduction modulo 2^64, matching the
  wrapping semantics of release-mode Rust.
* Rust's `v as usize` cast of an `i64`/`isize` is `usizeOfInt`, the
  Euclidean residue modulo 2^64 taken as a `Nat` (bit reinterpretation).
  The source computes `(v as isize + self.relative_base) as usize`; the
  intermediate `isize` wrap is absorbed by the final modulo-2^64 cast, so
  the embedding applies `usizeOfInt` to the exact integer sum.
* A `Vec` index `self.code[sp]` that may be out of bounds is `directIndex`,
  returning `none` for the panic; `Vec::resize` growth is `memGrow`.
* The fallible Rust paths (`Result`) are `Except IntErr`.
-/

/-- Parameter modes, from `enum ParameterMode`. -/
inductive ParameterMode where
  | position
  | immediate
  | relative
deriving DecidableEq, Repr

/-- The error values produced by the interpreter
(`InvalidParameterMode`, `InvalidOpcode`, `InvalidOutputMode`). -/
inductive IntErr where
  | invalidParameterMode (v : Int)
  | invalidOpcode (v : Int)
  | invalidOutputMode (m : ParameterMode)
deriving DecidableEq, Repr

deriving instance DecidableEq for Except

/-- `impl TryFrom<i64> for ParameterMode`. -/
def parameterModeOfInt (code : Int) : Except IntErr ParameterMode :=
  if code = 0 then .ok .position
  else if code = 1 then .ok .immediate
  else if code = 2 then .ok .relative
  else .error (.invalidParameterMode code)

/-- `ParameterMode::modes2`: the low two decimal digits of `code`
(Rust `%` and `/` truncate toward zero, hence `tmod`/`tdiv`). -/
def modes2 (code : Int) : Except IntErr (ParameterMode × ParameterMode) :=
  match parameterModeOfInt (code.tmod 10) with
  | .error e => .error e
  | .ok m1 =>
    match parameterModeOfInt ((code.tdiv 10).tmod 10) with
    | .error e => .error e
    | .ok m2 => .ok (m1, m2)

/-- `ParameterMode::modes3`: the low three decimal digits of `code`. -/
def modes3 (code : Int) : Except IntErr (ParameterMode × ParameterMode × ParameterMode) :=
  match parameterModeOfInt (code.tmod 10) with
  | .error e => .error e
  | .ok m1 =>
    match parameterModeOfInt ((code.tdiv 10).tmod 10) with
    | .error e => .error e
    | .ok m2 =>
      match parameterModeOfInt ((code.tdiv 100).tmod 10) with
      | .error e => .error e
      | .ok m3 => .ok (m1, m2, m3)

/-- Decoded instructions, from `enum Opcode`. -/
inductive Opcode where
  | add (m1 m2 m3 : ParameterMode)
  | multiply (m1 m2 m3 : ParameterMode)
  | input (m : ParameterMode)
  | output (m : ParameterMode)
  | jumpIfTrue (m1 m2 : ParameterMode)
  | jumpIfFalse (m1 m2 : ParameterMode)
  | lessThan (m1 m2 m3 : ParameterMode)
  | equal (m1 m2 m3 : ParameterMode)
  | relativeBaseOffset (m : ParameterMode)
  | halt
deriving DecidableEq, Repr

/-- `impl TryFrom<i64> for Opcode`: `code % 100` selects the opcode; the
mode digits come from `code / 100`.  The one-parameter opcodes (3, 4, 9)
convert the whole quotient `code / 100` as a single mode, so any extra
digits there make the conversion fail; every mode failure is mapped to
`InvalidOpcode(code)` (the source's `map_err`). -/
def decodeOpcode (code : Int) : Except IntErr Opcode :=
  let op := code.tmod 100
  if op = 1 then
    match modes3 (code.tdiv 100) with
    | .ok (m1, m2, m3) => .ok (.add m1 m2 m3)
    | .error _ => .error (.invalidOpcode code)
  else if op = 2 then
    match modes3 (code.tdiv 100) with
    | .ok (m1, m2, m3) => .ok (.multiply m1 m2 m3)
    | .error _ => .error (.invalidOpcode code)
  else if op = 3 then
    match parameterModeOfInt (code.tdiv 100) with
    | .ok m => .ok (.input m)
    | .error _ => .error (.invalidOpcode code)
  else if op = 4 then
    match parameterModeOfInt (code.tdiv 100) with
    | .ok m => .ok (.output m)
    | .error _ => .error (.invalidOpcode code)
  else if op = 5 then
    match modes2 (code.tdiv 100) with
    | .ok (m1, m2) => .ok (.jumpIfTrue m1 m2)
    | .error _ => .error (.invalidOpcode code)
  else if op = 6 then
    match modes2 (code.tdiv 100) with
    | .ok (m1, m2) => .ok (.jumpIfFalse m1 m2)
    | .error _ => .error (.invalidOpcode code)
  else if op = 7 then
    match modes3 (code.tdiv 100) with
    | .ok (m1, m2, m3) => .ok (.lessThan m1 m2 m3)
    | .error _ => .error (.invalidOpcode code)
  else if op = 8 then
    match modes3 (code.tdiv 100) with
    | .ok (m1, m2, m3) => .ok (.equal m1 m2 m3)
    | .error _ => .error (.invalidOpcode code)
  else if op = 9 then
    match parameterModeOfInt (code.tdiv 100) with
    | .ok m => .ok (.relativeBaseOffset m)
    | .error _ => .error (.invalidOpcode code)
  else if op = 99 then .ok .halt
  else .error (.invalidOpcode code)

/-- Rust `v as usize` on a 64-bit value: two's-complement reinterpretation,
i.e. the Euclidean residue modulo 2^64. -/
def usizeOfInt (v : Int) : Nat := (v.emod (2 ^ 64)).toNat

/-- Two's-complement wrap of an integer into the `i64` range
(release-mode Rust overflow semantics for `+`, `*`, `+=`). -/
def wrapI64 (v : Int) : Int := (v + 2 ^ 63).emod (2 ^ 64) - 2 ^ 63

/-- `Vec::resize(i + 1, 0)` guarded by `if i >= self.code.len()`:
grow the tape with zeros so index `i` is in bounds. -/
def memGrow (code : List Int) (i : Nat) : List Int :=
  if code.length ≤ i then code ++ List.replicate (i + 1 - code.length) 0 else code

/-- A direct `Vec` index `code[sp]`: `none` models the out-of-bounds panic. -/
def directIndex (code : List Int) (sp : Nat) : Option Int :=
  if h : sp < code.length then some code[sp] else none

/-- Processor state, from `struct Intcode` (`code`, `ip`, `relative_base`). -/
structure Intcode where
  code : List Int
  ip : Nat
  relativeBase : Int
deriving DecidableEq, Repr

instance : Inhabited Intcode := ⟨⟨[], 0, 0⟩⟩

/-- `Intcode::read`: grow the tape if needed, then return `code[i]`
(the grown tape makes the index in bounds, so `getD` reads the cell). -/
def Intcode.read (s : Intcode) (i : Nat) : Int × Intcode :=
  let c := memGrow s.code i
  (c.getD i 0, { s with code := c })

/-- `Intcode::write`: grow the tape if needed, then store `v` at `i`. -/
def Intcode.write (s : Intcode) (i : Nat) (v : Int) : Intcode :=
  { s with code := (memGrow s.code i).set i v }

/-- `Intcode::output_operand`: resolve a write-target address.  The direct
index of the parameter slot may panic (`none`); Immediate mode is the
`InvalidOutputMode` error; Position and Relative wrap the value through
the `as usize` cast. -/
def Intcode.outputOperand (s : Intcode) (sp : Nat) (mode : ParameterMode) :
    Option (Except IntErr Nat) :=
  match directIndex s.code sp with
  | none => none
  | some v =>
    match mode with
    | .position => some (.ok (usizeOfInt v))
    | .immediate => some (.error (.invalidOutputMode .immediate))
    | .relative => some (.ok (usizeOfInt (v + s.relativeBase)))

/-- `Intcode::operand`: resolve a read parameter.  The direct index of the
parameter slot may panic (`none`); Position/Relative then `read` (growing
the tape) at the wrapped address; Immediate is the value itself. -/
def Intcode.operand (s : Intcode) (sp : Nat) (mode : ParameterMode) :
    Option (Int × Intcode) :=
  match directIndex s.code sp with
  | none => none
  | some v =>
    match mode with
    | .position => some (s.read (usizeOfInt v))
    | .immediate => some (v, s)
    | .relative => some (s.read (usizeOfInt (v + s.relativeBase)))

/-- The result of executing one instruction of the decode/execute loop. -/
inductive StepRes where
  | cont (out : List Int) (consumed : Nat) (s : Intcode)
  | halt (s : Intcode)
  | suspend (s : Intcode)
  | fail (e : IntErr) (s : Intcode)
  | panic
deriving DecidableEq, Repr

/-- Execute one decoded instruction at `s.ip`, given the not-yet-consumed
input values.  Mirrors one iteration of the `loop` in `Intcode::run`:
operand resolution order, the suspension check for Input before the
write-target resolution, and the `ip` updates. -/
def execInstr (s : Intcode) (op : Opcode) (input : List Int) : StepRes :=
  match op with
  | .add m1 m2 m3 =>
    match s.operand (s.ip + 1) m1 with
    | none => .panic
    | some (v1, s1) =>
      match s1.operand (s.ip + 2) m2 with
      | none => .panic
      | some (v2, s2) =>
        match s2.outputOperand (s.ip + 3) m3 with
        | none => .panic
        | some (.error e) => .fail e s2
        | some (.ok a) => .cont [] 0 { s2.write a (wrapI64 (v1 + v2)) with ip := s.ip + 4 }
  | .multiply m1 m2 m3 =>
    match s.operand (s.ip + 1) m1 with
    | none => .panic
    | some (v1, s1) =>
      match s1.operand (s.ip + 2) m2 with
      | none => .panic
      | some (v2, s2) =>
        match s2.outputOperand (s.ip + 3) m3 with
        | none => .panic
        | some (.error e) => .fail e s2
        | some (.ok a) => .cont [] 0 { s2.write a (wrapI64 (v1 * v2)) with ip := s.ip + 4 }
  | .input m =>
    match input with
    | [] => .suspend s
    | x :: _ =>
      match s.outputOperand (s.ip + 1) m with
      | none => .panic
      | some (.error e) => .fail e s
      | some (.ok a) => .cont [] 1 { s.write a x with ip := s.ip + 2 }
  | .output m =>
    match s.operand (s.ip + 1) m with
    | none => .panic
    | some (v, s1) => .cont [v] 0 { s1 with ip := s.ip + 2 }
  | .jumpIfTrue m1 m2 =>
    match s.operand (s.ip + 1) m1 with
    | none => .panic
    | some (v1, s1) =>
      match s1.operand (s.ip + 2) m2 with
      | none => .panic
      | some (v2, s2) =>
        .cont [] 0 { s2 with ip := if v1 ≠ 0 then usizeOfInt v2 else s.ip + 3 }
  | .jumpIfFalse m1 m2 =>
    match s.operand (s.ip + 1) m1 with
    | none => .panic
    | some (v1, s1) =>
      match s1.operand (s.ip + 2) m2 with
      | none => .panic
      | some (v2, s2) =>
        .cont [] 0 { s2 with ip := if v1 = 0 then usizeOfInt v2 else s.ip + 3 }
  | .lessThan m1 m2 m3 =>
    match s.operand (s.ip + 1) m1 with
    | none => .panic
    | some (v1, s1) =>
      match s1.operand (s.ip + 2) m2 with
      | none => .panic
      | some (v2, s2) =>
        match s2.outputOperand (s.ip + 3) m3 with
        | none => .panic
        | some (.error e) => .fail e s2
        | some (.ok a) => .cont [] 0 { s2.write a (if v1 < v2 then 1 else 0) with ip := s.ip + 4 }
  | .equal m1 m2 m3 =>
    match s.operand (s.ip + 1) m1 with
    | none => .panic
    | some (v1, s1) =>
      match s1.operand (s.ip + 2) m2 with
      | none => .panic
      | some (v2, s2) =>
        match s2.outputOperand (s.ip + 3) m3 with
        | none => .panic
        | some (.error e) => .fail e s2
        | some (.ok a) => .cont [] 0 { s2.write a (if v1 = v2 then 1 else 0) with ip := s.ip + 4 }
  | .relativeBaseOffset m =>
    match s.operand (s.ip + 1) m with
    | none => .panic
    | some (v, s1) =>
      .cont [] 0 { s1 with relativeBase := wrapI64 (s1.relativeBase + v), ip := s.ip + 2 }
  | .halt => .halt s

/-- One iteration of `Intcode::run`'s loop: fetch with `read` (which may
grow the tape), decode, then execute. -/
def step (s : Intcode) (input : List Int) : StepRes :=
  let (opv, s1) := s.read s.ip
  match decodeOpcode opv with
  | .error e => .fail e s1
  | .ok op => execInstr s1 op input

/-- The result of `Intcode::run`: on `ok`, the output buffer of this call
and the `halted` flag (`false` = suspended at Input); on `err`, the state
is the partially mutated processor (the output buffer is dropped, as the
source returns only the error). -/
inductive RunOut where
  | ok (output : List Int) (halted : Bool) (s : Intcode)
  | err (e : IntErr) (s : Intcode)
  | panic
  | outOfFuel
deriving DecidableEq, Repr

/-- `Intcode::run`, with explicit fuel bounding the number of executed
instructions (the Rust loop may diverge). -/
def run : Nat → Intcode → List Int → RunOut
  | 0, _, _ => .outOfFuel
  | fuel + 1, s, input =>
    match step s input with
    | .halt s' => .ok [] true s'
    | .suspend s' => .ok [] false s'
    | .fail e s' => .err e s'
    | .panic => .panic
    | .cont out k s' =>
      match run fuel s' (input.drop k) with
      | .ok o h s'' => .ok (out ++ o) h s''
      | r => r

/-- Prepend already-collected output onto a later run result (outputs of an
errored run are dropped, as in the source). -/
def prependOut (o : List Int) : RunOut -> RunOut
  | .ok o2 h s => .ok (o ++ o2) h s
  | r => r

/-- Run a processor over successive `run` calls, one input chunk per call,
resuming after each suspended return and stopping at a halt or failure:
the caller-side protocol of incremental driving. -/
def runSeq (f : Nat) : Intcode -> List (List Int) -> RunOut
  | s, [] => .ok [] false s
  | s, c :: cs =>
    match run f s c with
    | .ok o1 true s1 => .ok o1 true s1
    | .ok o1 false s1 => prependOut o1 (runSeq f s1 cs)
    | .err e s1 => .err e s1
    | .panic => .panic
    | .outOfFuel => .outOfFuel

/-- A run result that consumes no further input: halted, failed, or panicked
(not suspended, not out of fuel). -/
def RunOut.terminal : RunOut -> Prop
  | .ok _ true _ => True
  | .err _ _ => True
  | .panic => True
  | _ => False

/-! ## Network orchestrator (`main` of `src/day23/src/bin/part2.rs`) -/

/-- `const COMPUTERS: usize = 50`. -/
def COMPUTERS : Nat := 50

/-- State of the network simulation: the 50 processors, their pending-input
queues, the NAT's remembered packet (`natx`, `naty`), the Y value recorded
at the previous NAT injection (`prev_naty`), and the per-instance quiet
counters (`idle`). -/
structure NetState where
  computers : List Intcode
  queues : List (List Int)
  natx : Int
  naty : Int
  prevNaty : Int
  idle : List Nat
deriving DecidableEq, Repr

/-- The initial network state built in `main`: 50 clones of the program,
each queue primed with its instance's address, `(natx, naty) = (0, i64::MIN)`,
`prev_naty = 0`, all idle counters 0. -/
def initNet (program : Intcode) : NetState where
  computers := List.replicate COMPUTERS program
  queues := (List.range COMPUTERS).map fun i => [(i : Int)]
  natx := 0
  naty := -(2 ^ 63)
  prevNaty := 0
  idle := List.replicate COMPUTERS 0

/-- The packet-routing loop over one instance's output
(`for j in (0..output.len()).step_by(3)`): a destination in `0..50`
appends `x` then `y` to that queue; destination 255 overwrites the NAT's
remembered packet; other destinations are dropped.  Reading `output[j+1]`
or `output[j+2]` past the end of the output aborts, modelled as `none`. -/
def distribute : List Int → List (List Int) × Int × Int →
    Option (List (List Int) × Int × Int)
  | [], st => some st
  | dest :: x :: y :: rest, (queues, natx, naty) =>
    if 0 ≤ dest ∧ dest < (COMPUTERS : Int) then
      distribute rest
        (queues.set dest.toNat (queues.getD dest.toNat [] ++ [x, y]), natx, naty)
    else if dest = 255 then distribute rest (queues, x, y)
    else distribute rest (queues, natx, naty)
  | _, _ => none

/-- The input queue an instance is run with: the sentinel `[-1]` is pushed
into an empty queue (`queues[i].push(-1)`), otherwise the queue as is. -/
def roundInput (st : NetState) (i : Nat) : List Int :=
  if (st.queues.getD i []).isEmpty then [-1] else st.queues.getD i []

/-- The body of `for i in 0..COMPUTERS` inside `main`'s round loop:
skip an instance that is already idle (counter ≥ 2) with an empty queue;
otherwise push the sentinel `-1` into an empty queue, run the instance on
its queue, route its output, update its quiet counter from the first
queue element (`queues[i][0] == -1`), and clear its queue.  `none` models
a propagated run error, a panic, exhausted fuel, or an aborted routing. -/
def processInstance (fuel : Nat) (st : NetState) (i : Nat) : Option NetState :=
  if (st.queues.getD i []).isEmpty ∧ 2 ≤ st.idle.getD i 0 then some st
  else
    match run fuel (st.computers.getD i default) (roundInput st i) with
    | .ok output _ s' =>
      match distribute output (st.queues.set i (roundInput st i), st.natx, st.naty) with
      | none => none
      | some (queues', natx', naty') =>
        match (queues'.getD i []).head? with
        | none => none
        | some h =>
          let idlei := if h = -1 then st.idle.getD i 0 + 1 else 0
          some { computers := st.computers.set i s'
                 queues := queues'.set i []
                 natx := natx'
                 naty := naty'
                 prevNaty := st.prevNaty
                 idle := st.idle.set i idlei }
    | _ => none

/-- One full round of `main`'s loop: process instances 0 through 49 in order. -/
def fullRound (fuel : Nat) (st : NetState) : Option NetState :=
  (List.range COMPUTERS).foldlM (processInstance fuel) st

/-- Result of the network simulation: the printed Y on termination together
with the list of Y values the NAT delivered to address 0 (in order), or a
failure / round-budget marker. -/
inductive NetOutcome where
  | terminated (y : Int) (sent : List Int)
  | error
  | outOfRounds (st : NetState) (sent : List Int)
deriving DecidableEq, Repr

/-- The outer `loop` of `main`, bounded by a round budget: run a full
round; if every quiet counter is ≥ 2 the network is idle, and then either
terminate (when the remembered `naty` equals `prev_naty`) or inject
`(natx, naty)` into queue 0 and record `naty`.  `sent` accumulates the Y
values actually delivered by the NAT. -/
def netLoop : Nat → Nat → NetState → List Int → NetOutcome
  | 0, _, st, sent => .outOfRounds st sent
  | r + 1, fuel, st, sent =>
    match fullRound fuel st with
    | none => .error
    | some st' =>
      if st'.idle.all fun c => 2 ≤ c then
        if st'.naty = st'.prevNaty then .terminated st'.naty sent
        else
          netLoop r fuel
            { st' with
              queues := st'.queues.set 0 (st'.queues.getD 0 [] ++ [st'.natx, st'.naty])
              prevNaty := st'.naty }
            (sent ++ [st'.naty])
      else netLoop r fuel st' sent

/-- The packets among an output stream addressed to instance `j`,
flattened in emission order. -/
def packetsFor (j : Nat) : List Int → List Int
  | dest :: x :: y :: rest =>
    (if dest = (j : Int) then [x, y] else []) ++ packetsFor j rest
  | _ => []

/-- Concrete fixture: a program that immediately emits the packet
`(1, 7, 8)` and halts (`104,1,104,7,104,8,99`). -/
def emitProg : Intcode := ⟨[104, 1, 104, 7, 104, 8, 99], 0, 0⟩

/-- Concrete fixture: a 50-instance network of `emitProg` copies with all
queues empty, NAT memory `(0, 0)`, `prev_naty = 0` and all quiet counters 0. -/
def emitNet : NetState where
  computers := List.replicate COMPUTERS emitProg
  queues := List.replicate COMPUTERS []
  natx := 0
  naty := 0
  prevNaty := 0
  idle := List.replicate COMPUTERS 0

/-- Concrete fixture: the network state reached from `emitNet` after
instance 0's round: instance 0 halted at ip 6, its queue consumed and
cleared, the packet `(7, 8)` delivered to queue 1, and instance 0's quiet
counter incremented to 1 (its queue was empty, so it ran on the
sentinel `-1`). -/
def emitNetAfter : NetState where
  computers := (List.replicate COMPUTERS emitProg).set 0 ⟨[104, 1, 104, 7, 104, 8, 99], 6, 0⟩
  queues := (((List.replicate COMPUTERS ([] : List Int)).set 0 [-1]).set 1 [7, 8]).set 0 []
  natx := 0
  naty := 0
  prevNaty := 0
  idle := (List.replicate COMPUTERS 0).set 0 1

/-- Concrete fixture: a program that sends `(x, y) = (0, 0)` to the NAT
address 255 and halts (`104,255,104,0,104,0,99`). -/
def nat255Prog : Intcode := ⟨[104, 255, 104, 0, 104, 0, 99], 0, 0⟩

/-- Concrete fixture: an already-idle 50-instance network (all instances
halted with empty queues and quiet counters at 2) whose NAT remembers
`(5, 7)`; `prevNaty` is a parameter. -/
def idleNet (prev : Int) : NetState where
  computers := List.replicate COMPUTERS ⟨[99], 0, 0⟩
  queues := List.replicate COMPUTERS []
  natx := 5
  naty := 7
  prevNaty := prev
  idle := List.replicate COMPUTERS 2

/-! ## Helper lemmas: memory -/

theorem getD_set_ne {α : Type} {l : List α} {i j : Nat} {v d : α} (h : i ≠ j) :
    (l.set i v).getD j d = l.getD j d := by
  simp [List.getD_eq_getElem?_getD, List.getElem?_set_ne h]

theorem getD_set_self {α : Type} {l : List α} {i : Nat} {v d : α} (h : i < l.length) :
    (l.set i v).getD i d = v := by
  simp [List.getD_eq_getElem?_getD, List.getElem?_set_eq_of_lt v h]

theorem getD_replicate_zero {n i : Nat} : (List.replicate n (0 : Int)).getD i 0 = 0 := by
  rcases Nat.lt_or_ge i n with h | h
  · simp [List.getD_eq_getElem?_getD, List.getElem?_replicate, h]
  · exact List.getD_eq_default _ _ (by simpa using h)

theorem memGrow_length (code : List Int) (i : Nat) :
    i < (memGrow code i).length ∧ code.length ≤ (memGrow code i).length := by
  unfold memGrow
  split <;> simp <;> omega

theorem memGrow_of_lt {code : List Int} {i : Nat} (h : i < code.length) :
    memGrow code i = code := by
  unfold memGrow
  simp [Nat.not_le.mpr h]

theorem memGrow_getD (code : List Int) (i a : Nat) :
    (memGrow code i).getD a 0 = code.getD a 0 := by
  unfold memGrow
  split
  · rcases Nat.lt_or_ge a code.length with ha | ha
    · exact List.getD_append _ _ _ _ ha
    · rw [List.getD_append_right _ _ _ _ ha, List.getD_eq_default _ _ ha,
        getD_replicate_zero]
  · rfl

theorem read_fst (s : Intcode) (i : Nat) : (s.read i).1 = s.code.getD i 0 :=
  memGrow_getD s.code i i

theorem read_snd_code (s : Intcode) (i a : Nat) :
    (s.read i).2.code.getD a 0 = s.code.getD a 0 :=
  memGrow_getD s.code i a

theorem read_snd_ip (s : Intcode) (i : Nat) : (s.read i).2.ip = s.ip := rfl

theorem read_snd_relativeBase (s : Intcode) (i : Nat) :
    (s.read i).2.relativeBase = s.relativeBase := rfl

theorem read_of_lt {s : Intcode} {i : Nat} (h : i < s.code.length) :
    s.read i = (s.code.getD i 0, s) := by
  simp [Intcode.read, memGrow_of_lt h]

theorem write_getD_self {s : Intcode} {i : Nat} {v : Int} :
    (s.write i v).code.getD i 0 = v := by
  exact getD_set_self (memGrow_length s.code i).1

/-! ## Helper lemmas: single steps -/

theorem step_eq (s : Intcode) (inp : List Int) :
    step s inp =
      match decodeOpcode (s.code.getD s.ip 0) with
      | .error e => .fail e (s.read s.ip).2
      | .ok op => execInstr (s.read s.ip).2 op inp := by
  simp only [step]
  rw [show s.read s.ip = (s.code.getD s.ip 0, (s.read s.ip).2) by rw [← read_fst]]

theorem decode_getD_ok_lt {s : Intcode} {op : Opcode}
    (h : decodeOpcode (s.code.getD s.ip 0) = .ok op) : s.ip < s.code.length := by
  by_contra hlt
  push_neg at hlt
  rw [List.getD_eq_default _ _ hlt] at h
  rw [show decodeOpcode 0 = Except.error (.invalidOpcode 0) from by decide] at h
  exact Except.noConfusion h

theorem step_of_decode_ok {s : Intcode} {op : Opcode} {inp : List Int}
    (h : decodeOpcode (s.code.getD s.ip 0) = .ok op) :
    step s inp = execInstr s op inp := by
  rw [step_eq, h, read_of_lt (decode_getD_ok_lt h)]

theorem step_of_decode_err {s : Intcode} {e : IntErr} {inp : List Int}
    (h : decodeOpcode (s.code.getD s.ip 0) = .error e) :
    step s inp = .fail e (s.read s.ip).2 := by
  rw [step_eq, h]

theorem execInstr_suspend {s : Intcode} {op : Opcode} {inp : List Int} {s' : Intcode}
    (h : execInstr s op inp = .suspend s') :
    (∃ m, op = .input m) ∧ inp = [] ∧ s' = s := by
  cases op with
  | input m =>
    cases inp with
    | nil => simp only [execInstr] at h; cases h; exact ⟨⟨m, rfl⟩, rfl, rfl⟩
    | cons x xs =>
      simp only [execInstr] at h
      split at h <;> try split at h
      all_goals cases h
  | halt => simp only [execInstr] at h; cases h
  | add m1 m2 m3 =>
    simp only [execInstr] at h
    split at h <;> (try split at h) <;> (try split at h) <;> cases h
  | multiply m1 m2 m3 =>
    simp only [execInstr] at h
    split at h <;> (try split at h) <;> (try split at h) <;> cases h
  | output m =>
    simp only [execInstr] at h
    split at h <;> cases h
  | jumpIfTrue m1 m2 =>
    simp only [execInstr] at h
    split at h <;> (try split at h) <;> cases h
  | jumpIfFalse m1 m2 =>
    simp only [execInstr] at h
    split at h <;> (try split at h) <;> cases h
  | lessThan m1 m2 m3 =>
    simp only [execInstr] at h
    split at h <;> (try split at h) <;> (try split at h) <;> cases h
  | equal m1 m2 m3 =>
    simp only [execInstr] at h
    split at h <;> (try split at h) <;> (try split at h) <;> cases h
  | relativeBaseOffset m =>
    simp only [execInstr] at h
    split at h <;> cases h

theorem step_suspend_iff {s s' : Intcode} {inp : List Int} :
    step s inp = .suspend s' ↔
      s' = s ∧ inp = [] ∧ ∃ m, decodeOpcode (s.code.getD s.ip 0) = .ok (.input m) := by
  constructor
  · intro h
    rw [step_eq] at h
    cases hdec : decodeOpcode (s.code.getD s.ip 0) with
    | error e => rw [hdec] at h; cases h
    | ok op =>
      rw [hdec, read_of_lt (decode_getD_ok_lt hdec)] at h
      obtain ⟨⟨m, rfl⟩, rfl, rfl⟩ := execInstr_suspend h
      exact ⟨rfl, rfl, m, rfl⟩
  · rintro ⟨rfl, rfl, m, hdec⟩
    rw [step_of_decode_ok hdec]
    rfl

theorem run_succ_halt {f : Nat} {s : Intcode} {inp : List Int} {s1 : Intcode}
    (hstep : step s inp = .halt s1) : run (f + 1) s inp = .ok [] true s1 := by
  rw [run, hstep]

theorem run_succ_suspend {f : Nat} {s : Intcode} {inp : List Int} {s1 : Intcode}
    (hstep : step s inp = .suspend s1) : run (f + 1) s inp = .ok [] false s1 := by
  rw [run, hstep]

theorem run_succ_fail {f : Nat} {s : Intcode} {inp : List Int} {e : IntErr} {s1 : Intcode}
    (hstep : step s inp = .fail e s1) : run (f + 1) s inp = .err e s1 := by
  rw [run, hstep]

theorem run_succ_panic {f : Nat} {s : Intcode} {inp : List Int}
    (hstep : step s inp = .panic) : run (f + 1) s inp = .panic := by
  rw [run, hstep]

theorem run_succ_cont {f : Nat} {s : Intcode} {inp out : List Int} {k : Nat} {s1 : Intcode}
    (hstep : step s inp = .cont out k s1) :
    run (f + 1) s inp =
      match run f s1 (inp.drop k) with
      | .ok o h s2 => .ok (out ++ o) h s2
      | r => r := by
  rw [run, hstep]

theorem run_suspended_at_input {f : Nat} {s : Intcode} {inp out : List Int} {s' : Intcode}
    (h : run f s inp = .ok out false s') :
    ∃ m, decodeOpcode (s'.code.getD s'.ip 0) = .ok (.input m) := by
  induction f generalizing s inp out with
  | zero => cases h
  | succ f ih =>
    cases hstep : step s inp with
    | halt s1 => rw [run_succ_halt hstep] at h; cases h
    | suspend s1 =>
      rw [run_succ_suspend hstep] at h
      cases h
      obtain ⟨hs, -, m, hdec⟩ := step_suspend_iff.mp hstep
      subst hs
      exact ⟨m, hdec⟩
    | fail e s1 => rw [run_succ_fail hstep] at h; cases h
    | panic => rw [run_succ_panic hstep] at h; cases h
    | cont o k s1 =>
      rw [run_succ_cont hstep] at h
      cases hr : run f s1 (inp.drop k) with
      | ok o2 h2 s2 =>
        rw [hr] at h
        cases h
        exact ih hr
      | err e s2 => rw [hr] at h; cases h
      | panic => rw [hr] at h; cases h
      | outOfFuel => rw [hr] at h; cases h

theorem run_mono {f : Nat} (g : Nat) {s : Intcode} {inp : List Int} {r : RunOut}
    (h : run f s inp = r) (hr : r ≠ .outOfFuel) : run (f + g) s inp = r := by
  induction f generalizing s inp r with
  | zero => cases h; exact absurd rfl hr
  | succ f ih =>
    rw [show f + 1 + g = (f + g) + 1 by omega]
    cases hstep : step s inp with
    | halt s1 => rw [run_succ_halt hstep] at h ⊢; exact h
    | suspend s1 => rw [run_succ_suspend hstep] at h ⊢; exact h
    | fail e s1 => rw [run_succ_fail hstep] at h ⊢; exact h
    | panic => rw [run_succ_panic hstep] at h ⊢; exact h
    | cont o k s1 =>
      rw [run_succ_cont hstep] at h ⊢
      cases hrec : run f s1 (inp.drop k) with
      | ok o2 h2 s2 => rw [hrec] at h; rw [ih hrec (by simp)]; exact h
      | err e s2 => rw [hrec] at h; rw [ih hrec (by simp)]; exact h
      | panic => rw [hrec] at h; rw [ih hrec (by simp)]; exact h
      | outOfFuel => rw [hrec] at h; exact absurd h.symm hr

/-! ## Helper lemmas: extending the input does not change executed steps -/

theorem execInstr_append_of_ne {s : Intcode} {op : Opcode} {xs : List Int} {r : StepRes}
    (h : execInstr s op xs = r)
    (hr : ∀ s1, r ≠ .suspend s1) (ys : List Int) :
    execInstr s op (xs ++ ys) = r := by
  cases op
  case input m =>
    cases xs with
    | nil =>
      simp only [execInstr] at h
      exact absurd h.symm (hr s)
    | cons x xs' => exact h
  all_goals exact h

theorem execInstr_append {s : Intcode} {op : Opcode} {xs ys out : List Int} {k : Nat}
    {s' : Intcode} (h : execInstr s op xs = .cont out k s') :
    execInstr s op (xs ++ ys) = .cont out k s' ∧ (xs ++ ys).drop k = xs.drop k ++ ys := by
  cases op with
  | input m =>
    cases xs with
    | nil => simp only [execInstr] at h; cases h
    | cons x xs' =>
      have hk : k = 1 := by
        simp only [execInstr] at h
        split at h <;> cases h <;> rfl
      subst hk
      exact ⟨h, by simp⟩
  | halt => simp only [execInstr] at h; cases h
  | output m =>
    have hk : k = 0 := by
      simp only [execInstr] at h
      split at h <;> cases h <;> rfl
    subst hk
    exact ⟨h, by simp⟩
  | relativeBaseOffset m =>
    have hk : k = 0 := by
      simp only [execInstr] at h
      split at h <;> cases h <;> rfl
    subst hk
    exact ⟨h, by simp⟩
  | jumpIfTrue m1 m2 =>
    have hk : k = 0 := by
      simp only [execInstr] at h
      split at h <;> (try split at h) <;> cases h <;> rfl
    subst hk
    exact ⟨h, by simp⟩
  | jumpIfFalse m1 m2 =>
    have hk : k = 0 := by
      simp only [execInstr] at h
      split at h <;> (try split at h) <;> cases h <;> rfl
    subst hk
    exact ⟨h, by simp⟩
  | add m1 m2 m3 =>
    have hk : k = 0 := by
      simp only [execInstr] at h
      split at h <;> (try split at h) <;> (try split at h) <;> cases h <;> rfl
    subst hk
    exact ⟨h, by simp⟩
  | multiply m1 m2 m3 =>
    have hk : k = 0 := by
      simp only [execInstr] at h
      split at h <;> (try split at h) <;> (try split at h) <;> cases h <;> rfl
    subst hk
    exact ⟨h, by simp⟩
  | lessThan m1 m2 m3 =>
    have hk : k = 0 := by
      simp only [execInstr] at h
      split at h <;> (try split at h) <;> (try split at h) <;> cases h <;> rfl
    subst hk
    exact ⟨h, by simp⟩
  | equal m1 m2 m3 =>
    have hk : k = 0 := by
      simp only [execInstr] at h
      split at h <;> (try split at h) <;> (try split at h) <;> cases h <;> rfl
    subst hk
    exact ⟨h, by simp⟩

theorem step_append {s : Intcode} {xs ys out : List Int} {k : Nat} {s' : Intcode}
    (h : step s xs = .cont out k s') :
    step s (xs ++ ys) = .cont out k s' ∧ (xs ++ ys).drop k = xs.drop k ++ ys := by
  rw [step_eq] at h ⊢
  revert h
  cases hdec : decodeOpcode (s.code.getD s.ip 0) with
  | error e => intro h; cases h
  | ok op => intro h; exact execInstr_append h

theorem step_append_of_ne {s : Intcode} {xs : List Int} {r : StepRes}
    (h : step s xs = r)
    (hr : ∀ s1, r ≠ .suspend s1) (ys : List Int) :
    step s (xs ++ ys) = r := by
  rw [step_eq] at h ⊢
  revert h
  cases hdec : decodeOpcode (s.code.getD s.ip 0) with
  | error e => intro h; exact h
  | ok op => intro h; exact execInstr_append_of_ne h hr ys

/-! ## Helper lemmas: composing suspended runs -/

theorem run_split {f1 f2 : Nat} {s s1 : Intcode} {xs ys o1 : List Int} {r : RunOut}
    (h1 : run f1 s xs = .ok o1 false s1) (h2 : run f2 s1 ys = r) (hr : r ≠ .outOfFuel) :
    run (f1 + f2) s (xs ++ ys) = prependOut o1 r := by
  induction f1 generalizing s xs o1 with
  | zero => cases h1
  | succ f1 ih =>
    cases hstep : step s xs with
    | halt s2 => rw [run_succ_halt hstep] at h1; cases h1
    | fail e s2 => rw [run_succ_fail hstep] at h1; cases h1
    | panic => rw [run_succ_panic hstep] at h1; cases h1
    | suspend s2 =>
      rw [run_succ_suspend hstep] at h1
      cases h1
      obtain ⟨hs, hxs, -⟩ := step_suspend_iff.mp hstep
      subst hs
      subst hxs
      have : prependOut [] r = r := by cases r <;> simp [prependOut]
      rw [this, show f1 + 1 + f2 = f2 + (f1 + 1) by omega, List.nil_append]
      exact run_mono (f1 + 1) h2 hr
    | cont o k s2 =>
      rw [run_succ_cont hstep] at h1
      cases hr1 : run f1 s2 (xs.drop k) with
      | ok o2 h2b s3 =>
        rw [hr1] at h1
        cases h1
        rw [show f1 + 1 + f2 = (f1 + f2) + 1 by omega,
          run_succ_cont (step_append hstep).1, (step_append hstep).2, ih hr1]
        cases r <;> simp [prependOut]
      | err e s3 => rw [hr1] at h1; cases h1
      | panic => rw [hr1] at h1; cases h1
      | outOfFuel => rw [hr1] at h1; cases h1

theorem run_extend_terminal {f : Nat} {s : Intcode} {xs : List Int} {r : RunOut}
    (h : run f s xs = r) (hterm : r.terminal) (g : Nat) (ys : List Int) :
    run (f + g) s (xs ++ ys) = r := by
  induction f generalizing s xs r with
  | zero => subst h; exact hterm.elim
  | succ f ih =>
    rw [show f + 1 + g = (f + g) + 1 by omega]
    cases hstep : step s xs with
    | halt s1 =>
      rw [run_succ_halt hstep] at h
      subst h
      exact run_succ_halt (step_append_of_ne hstep (by intro s2 hc; cases hc) ys)
    | suspend s1 =>
      rw [run_succ_suspend hstep] at h
      subst h
      exact hterm.elim
    | fail e s1 =>
      rw [run_succ_fail hstep] at h
      subst h
      exact run_succ_fail (step_append_of_ne hstep (by intro s2 hc; cases hc) ys)
    | panic =>
      rw [run_succ_panic hstep] at h
      subst h
      exact run_succ_panic (step_append_of_ne hstep (by intro s2 hc; cases hc) ys)
    | cont o k s1 =>
      rw [run_succ_cont hstep] at h
      rw [run_succ_cont (step_append hstep).1, (step_append hstep).2]
      cases hr1 : run f s1 (xs.drop k) with
      | ok o2 hb s2 =>
        rw [hr1] at h
        subst h
        cases hb with
        | false => exact hterm.elim
        | true => rw [ih hr1 trivial]
      | err e s2 =>
        rw [hr1] at h
        subst h
        rw [ih hr1 trivial]
      | panic =>
        rw [hr1] at h
        subst h
        rw [ih hr1 trivial]
      | outOfFuel =>
        rw [hr1] at h
        subst h
        exact hterm.elim

theorem runSeq_join {f : Nat} {s : Intcode} {c : List Int} {cs : List (List Int)} {r : RunOut}
    (h : runSeq f s (c :: cs) = r) (hr : r ≠ .outOfFuel) :
    run (f * (c :: cs).length) s ((c :: cs).flatten) = r := by
  induction cs generalizing s c r with
  | nil =>
    rw [runSeq] at h
    revert h
    cases hc : run f s c with
    | ok o1 hb s1 =>
      cases hb with
      | true => intro h; subst h; simpa using hc
      | false =>
        intro h
        have h' : prependOut o1 (runSeq f s1 []) = r := h
        simp only [prependOut, runSeq, List.append_nil] at h'
        subst h'
        simpa using hc
    | err e s1 => intro h; subst h; simpa using hc
    | panic => intro h; subst h; simpa using hc
    | outOfFuel => intro h; subst h; exact absurd rfl hr
  | cons c2 cs ih =>
    rw [runSeq] at h
    revert h
    cases hc : run f s c with
    | ok o1 hb s1 =>
      cases hb with
      | true =>
        intro h
        subst h
        have hgoal := run_extend_terminal hc trivial (f * (c2 :: cs).length) (c2 :: cs).flatten
        rw [show f * (c :: c2 :: cs).length = f + f * (c2 :: cs).length by
          simp only [List.length_cons]; ring, List.flatten_cons]
        exact hgoal
      | false =>
        intro h
        have h' : prependOut o1 (runSeq f s1 (c2 :: cs)) = r := h
        have hr2 : runSeq f s1 (c2 :: cs) ≠ .outOfFuel := by
          intro hbad
          rw [hbad] at h'
          simp [prependOut] at h'
          exact hr h'.symm
        rw [show f * (c :: c2 :: cs).length = f + f * (c2 :: cs).length by
          simp only [List.length_cons]; ring, List.flatten_cons]
        rw [run_split hc (ih rfl hr2) hr2]
        exact h'
    | err e s1 =>
      intro h
      subst h
      have hgoal := run_extend_terminal hc trivial (f * (c2 :: cs).length) (c2 :: cs).flatten
      rw [show f * (c :: c2 :: cs).length = f + f * (c2 :: cs).length by
        simp only [List.length_cons]; ring, List.flatten_cons]
      exact hgoal
    | panic =>
      intro h
      subst h
      have hgoal := run_extend_terminal hc trivial (f * (c2 :: cs).length) (c2 :: cs).flatten
      rw [show f * (c :: c2 :: cs).length = f + f * (c2 :: cs).length by
        simp only [List.length_cons]; ring, List.flatten_cons]
      exact hgoal
    | outOfFuel => intro h; subst h; exact absurd rfl hr

/-! ## Helper lemmas: packet routing -/

theorem distribute_length (out : List Int) (st : List (List Int) × Int × Int)
    {st2 : List (List Int) × Int × Int} (h : distribute out st = some st2) :
    st2.1.length = st.1.length := by
  induction out, st using distribute.induct with
  | case1 st => rw [distribute] at h; cases h; rfl
  | case2 dest x y rest queues natx naty hd ih =>
    rw [distribute, if_pos hd] at h
    rw [ih h, List.length_set]
  | case3 x y rest queues natx naty hno ih =>
    rw [distribute, if_neg hno, if_pos rfl] at h
    exact ih h
  | case4 dest x y rest queues natx naty hd h255 ih =>
    rw [distribute, if_neg hd, if_neg h255] at h
    exact ih h
  | case5 t x hne htriple =>
    rcases x with ⟨queues, natx, naty⟩
    cases t with
    | nil => exact absurd rfl hne
    | cons d t' =>
      cases t' with
      | nil => simp [distribute] at h
      | cons x2 t2 =>
        cases t2 with
        | nil => simp [distribute] at h
        | cons y2 rest => exact (htriple d x2 y2 rest queues natx naty rfl rfl).elim

theorem distribute_getD (out : List Int) (st : List (List Int) × Int × Int)
    {st2 : List (List Int) × Int × Int} (h : distribute out st = some st2)
    (j : Nat) (hj : j < st.1.length) (hj50 : j < COMPUTERS) :
    st2.1.getD j [] = st.1.getD j [] ++ packetsFor j out := by
  induction out, st using distribute.induct with
  | case1 st =>
    rw [distribute] at h
    cases h
    simp [packetsFor]
  | case2 dest x y rest queues natx naty hd ih =>
    rw [distribute, if_pos hd] at h
    by_cases hdj : dest = (j : Int)
    · have htn : dest.toNat = j := by omega
      have hrec := ih h (by simpa using hj)
      dsimp only at hrec ⊢
      rw [hrec, htn, getD_set_self (show j < queues.length from hj)]
      rw [show packetsFor j (dest :: x :: y :: rest) = [x, y] ++ packetsFor j rest by
        rw [packetsFor, if_pos hdj]]
      simp
    · have htn : dest.toNat ≠ j := by omega
      have hrec := ih h (by simpa using hj)
      dsimp only at hrec ⊢
      rw [hrec, getD_set_ne htn]
      rw [show packetsFor j (dest :: x :: y :: rest) = packetsFor j rest by
        rw [packetsFor, if_neg hdj]; simp]
  | case3 x y rest queues natx naty hno ih =>
    rw [distribute, if_neg hno, if_pos rfl] at h
    have hrec := ih h hj
    rw [hrec]
    rw [show packetsFor j (255 :: x :: y :: rest) = packetsFor j rest by
      rw [packetsFor, if_neg (by unfold COMPUTERS at hj50; omega)]; simp]
  | case4 dest x y rest queues natx naty hd h255 ih =>
    rw [distribute, if_neg hd, if_neg h255] at h
    have hrec := ih h hj
    rw [hrec]
    rw [show packetsFor j (dest :: x :: y :: rest) = packetsFor j rest by
      rw [packetsFor, if_neg (by unfold COMPUTERS at hj50 hd; omega)]; simp]
  | case5 t x hne htriple =>
    rcases x with ⟨queues, natx, naty⟩
    cases t with
    | nil => exact absurd rfl hne
    | cons d t' =>
      cases t' with
      | nil => simp [distribute] at h
      | cons x2 t2 =>
        cases t2 with
        | nil => simp [distribute] at h
        | cons y2 rest => exact (htriple d x2 y2 rest queues natx naty rfl rfl).elim

/-! ## Helper lemmas: one instance of the round loop -/

theorem processInstance_skip {fuel : Nat} {st : NetState} {i : Nat}
    (hq : st.queues.getD i [] = []) (hi : 2 ≤ st.idle.getD i 0) :
    processInstance fuel st i = some st := by
  rw [processInstance, if_pos ⟨by rw [hq]; rfl, hi⟩]

theorem processInstance_char {fuel : Nat} {st : NetState} {i : Nat}
    {out : List Int} {hb : Bool} {s' : Intcode} {qs2 : List (List Int)} {nx2 ny2 hv : Int}
    (hskip : ¬((st.queues.getD i []).isEmpty = true ∧ 2 ≤ st.idle.getD i 0))
    (hrun : run fuel (st.computers.getD i default) (roundInput st i) = .ok out hb s')
    (hdist : distribute out (st.queues.set i (roundInput st i), st.natx, st.naty) =
      some (qs2, nx2, ny2))
    (hhead : (qs2.getD i []).head? = some hv) :
    processInstance fuel st i =
      some { computers := st.computers.set i s'
             queues := qs2.set i []
             natx := nx2
             naty := ny2
             prevNaty := st.prevNaty
             idle := st.idle.set i (if hv = -1 then st.idle.getD i 0 + 1 else 0) } := by
  rw [processInstance, if_neg hskip, hrun]
  dsimp only
  rw [hdist]
  dsimp only
  rw [hhead]

theorem processInstance_queues {fuel : Nat} {st : NetState} {i : Nat}
    {out : List Int} {hb : Bool} {s' : Intcode} {qs2 : List (List Int)} {nx2 ny2 hv : Int}
    {st' : NetState}
    (hlen : st.queues.length = COMPUTERS) (hi : i < COMPUTERS)
    (hskip : ¬((st.queues.getD i []).isEmpty = true ∧ 2 ≤ st.idle.getD i 0))
    (hrun : run fuel (st.computers.getD i default) (roundInput st i) = .ok out hb s')
    (hdist : distribute out (st.queues.set i (roundInput st i), st.natx, st.naty) =
      some (qs2, nx2, ny2))
    (hhead : (qs2.getD i []).head? = some hv)
    (hpi : processInstance fuel st i = some st') :
    st'.queues.getD i [] = [] ∧
      ∀ j, j < COMPUTERS → j ≠ i →
        st'.queues.getD j [] = st.queues.getD j [] ++ packetsFor j out := by
  rw [processInstance_char hskip hrun hdist hhead] at hpi
  injection hpi with hpi
  subst hpi
  have hlen2 : qs2.length = COMPUTERS := by
    have := distribute_length _ _ hdist
    simpa [hlen] using this
  constructor
  · exact getD_set_self (by rw [hlen2]; exact hi)
  · intro j hj hji
    dsimp only
    rw [getD_set_ne (fun a => hji a.symm)]
    have := distribute_getD out _ hdist j (by simpa [hlen] using hj) hj
    dsimp only at this
    rw [getD_set_ne (fun a => hji a.symm)] at this
    exact this

theorem processInstance_idle_count {fuel : Nat} {st : NetState} {i : Nat}
    {out : List Int} {hb : Bool} {s' : Intcode} {qs2 : List (List Int)} {nx2 ny2 hv : Int}
    {st' : NetState}
    (hlenI : st.idle.length = COMPUTERS) (hi : i < COMPUTERS)
    (hskip : ¬((st.queues.getD i []).isEmpty = true ∧ 2 ≤ st.idle.getD i 0))
    (hrun : run fuel (st.computers.getD i default) (roundInput st i) = .ok out hb s')
    (hdist : distribute out (st.queues.set i (roundInput st i), st.natx, st.naty) =
      some (qs2, nx2, ny2))
    (hhead : (qs2.getD i []).head? = some hv)
    (hpi : processInstance fuel st i = some st') :
    st'.idle.getD i 0 = if hv = -1 then st.idle.getD i 0 + 1 else 0 := by
  rw [processInstance_char hskip hrun hdist hhead] at hpi
  injection hpi with hpi
  subst hpi
  exact getD_set_self (by rw [hlenI]; exact hi)

theorem roundInput_head_of_empty {st : NetState} {i : Nat}
    (hq : st.queues.getD i [] = []) : roundInput st i = [-1] := by
  rw [roundInput, hq]
  rfl

theorem distributed_head_of_empty {st : NetState} {i : Nat}
    {out : List Int} {qs2 : List (List Int)} {nx2 ny2 : Int}
    (hlen : st.queues.length = COMPUTERS) (hi : i < COMPUTERS)
    (hq : st.queues.getD i [] = [])
    (hdist : distribute out (st.queues.set i (roundInput st i), st.natx, st.naty) =
      some (qs2, nx2, ny2)) :
    (qs2.getD i []).head? = some (-1) := by
  have := distribute_getD out _ hdist i (by simpa [hlen] using hi) hi
  dsimp only at this
  rw [getD_set_self (show i < st.queues.length by rw [hlen]; exact hi),
    roundInput_head_of_empty hq] at this
  rw [this]
  rfl

theorem distributed_head_of_nonempty {st : NetState} {i : Nat} {h0 : Int}
    {out : List Int} {qs2 : List (List Int)} {nx2 ny2 : Int}
    (hlen : st.queues.length = COMPUTERS) (hi : i < COMPUTERS)
    (hq : (st.queues.getD i []).head? = some h0)
    (hdist : distribute out (st.queues.set i (roundInput st i), st.natx, st.naty) =
      some (qs2, nx2, ny2)) :
    (qs2.getD i []).head? = some h0 := by
  have hne : st.queues.getD i [] ≠ [] := by
    intro hbad
    rw [hbad] at hq
    cases hq
  have hri : roundInput st i = st.queues.getD i [] := by
    rw [roundInput, if_neg (by simpa [List.isEmpty_iff] using hne)]
  have := distribute_getD out _ hdist i (by simpa [hlen] using hi) hi
  dsimp only at this
  rw [getD_set_self (show i < st.queues.length by rw [hlen]; exact hi), hri] at this
  rw [this]
  cases hcq : st.queues.getD i [] with
  | nil => exact absurd hcq hne
  | cons a l =>
    rw [hcq] at hq
    simpa using hq

/-! ## Helper lemmas: the outer network loop -/

theorem netLoop_not_idle {r fuel : Nat} {st st' : NetState} {sent : List Int}
    (h : fullRound fuel st = some st')
    (hni : st'.idle.all (fun c => 2 ≤ c) = false) :
    netLoop (r + 1) fuel st sent = netLoop r fuel st' sent := by
  rw [netLoop, h]
  dsimp only
  rw [hni]
  rfl

theorem netLoop_terminate {r fuel : Nat} {st st' : NetState} {sent : List Int}
    (h : fullRound fuel st = some st')
    (hall : st'.idle.all (fun c => 2 ≤ c) = true)
    (heq : st'.naty = st'.prevNaty) :
    netLoop (r + 1) fuel st sent = .terminated st'.naty sent := by
  rw [netLoop, h]
  dsimp only
  rw [hall, if_pos rfl, if_pos heq]

theorem netLoop_inject {r fuel : Nat} {st st' : NetState} {sent : List Int}
    (h : fullRound fuel st = some st')
    (hall : st'.idle.all (fun c => 2 ≤ c) = true)
    (hne : st'.naty ≠ st'.prevNaty) :
    netLoop (r + 1) fuel st sent =
      netLoop r fuel
        { st' with
          queues := st'.queues.set 0 (st'.queues.getD 0 [] ++ [st'.natx, st'.naty])
          prevNaty := st'.naty }
        (sent ++ [st'.naty]) := by
  rw [netLoop, h]
  dsimp only
  rw [hall, if_pos rfl, if_neg hne]

/-! ## Helper lemmas: operand resolution -/

theorem operand_spec (s : Intcode) (sp : Nat) (m : ParameterMode) (hsp : sp < s.code.length) :
    ∃ v s2, s.operand sp m = some (v, s2) ∧
      (∀ a, s2.code.getD a 0 = s.code.getD a 0) ∧
      s2.ip = s.ip ∧ s2.relativeBase = s.relativeBase ∧
      s.code.length ≤ s2.code.length := by
  unfold Intcode.operand directIndex
  rw [dif_pos hsp]
  cases m with
  | immediate => exact ⟨_, s, rfl, fun a => rfl, rfl, rfl, Nat.le_refl _⟩
  | position =>
    exact ⟨_, _, rfl, fun a => read_snd_code s _ a, rfl, rfl, (memGrow_length s.code _).2⟩
  | relative =>
    exact ⟨_, _, rfl, fun a => read_snd_code s _ a, rfl, rfl, (memGrow_length s.code _).2⟩

theorem outputOperand_immediate {s : Intcode} {sp : Nat} (hsp : sp < s.code.length) :
    s.outputOperand sp .immediate = some (.error (.invalidOutputMode .immediate)) := by
  unfold Intcode.outputOperand directIndex
  rw [dif_pos hsp]

theorem operand_none {s : Intcode} {sp : Nat} (m : ParameterMode)
    (hsp : s.code.length ≤ sp) : s.operand sp m = none := by
  unfold Intcode.operand directIndex
  rw [dif_neg (by omega)]

theorem outputOperand_none {s : Intcode} {sp : Nat} (m : ParameterMode)
    (hsp : s.code.length ≤ sp) : s.outputOperand sp m = none := by
  unfold Intcode.outputOperand directIndex
  rw [dif_neg (by omega)]

theorem read_big {s : Intcode} {A : Nat} (h : s.code.length ≤ A) :
    s.read A = (0, { s with code := s.code ++ List.replicate (A + 1 - s.code.length) 0 }) := by
  unfold Intcode.read memGrow
  rw [if_pos h]
  dsimp only
  rw [List.getD_append_right _ _ _ _ h, getD_replicate_zero]

theorem usizeOfInt_neg {v : Int} (h1 : -(2 ^ 63) ≤ v) (h2 : v < 0) :
    usizeOfInt v = (2 ^ 64 + v).toNat ∧ 2 ^ 63 ≤ usizeOfInt v := by
  have e64 : (2 : Int) ^ 64 = 18446744073709551616 := by norm_num
  have h1n : -9223372036854775808 ≤ v := by
    rw [show -((2 : Int) ^ 63) = -9223372036854775808 by norm_num] at h1
    exact h1
  have hm : v % 18446744073709551616 = 18446744073709551616 + v := by omega
  unfold usizeOfInt
  rw [e64, show v.emod 18446744073709551616 = v % 18446744073709551616 from rfl, hm]
  refine ⟨rfl, ?_⟩
  rw [show (2 : Nat) ^ 63 = 9223372036854775808 by norm_num]
  omega

theorem step_output_position_neg {s : Intcode} {inp : List Int} {v : Int}
    (hop : s.code.getD s.ip 0 = 4) (hsp : s.ip + 1 < s.code.length)
    (hv : s.code.getD (s.ip + 1) 0 = v) (hneg : v < 0) (hlo : -(2 ^ 63) ≤ v)
    (hsmall : s.code.length ≤ 2 ^ 63) :
    step s inp =
      .cont [0] 0
        { code := s.code ++ List.replicate (usizeOfInt v + 1 - s.code.length) 0
          ip := s.ip + 2
          relativeBase := s.relativeBase } ∧
    usizeOfInt v = (2 ^ 64 + v).toNat ∧ 2 ^ 63 ≤ usizeOfInt v := by
  obtain ⟨heq, hge⟩ := usizeOfInt_neg hlo hneg
  have hdec : decodeOpcode (s.code.getD s.ip 0) = .ok (.output .position) := by
    rw [hop]; decide
  refine ⟨?_, heq, hge⟩
  rw [step_of_decode_ok hdec]
  simp only [execInstr]
  have hidx : s.operand (s.ip + 1) .position = some (s.read (usizeOfInt v)) := by
    unfold Intcode.operand directIndex
    rw [dif_pos hsp]
    dsimp only
    rw [show s.code[s.ip + 1] = v from (List.getD_eq_getElem _ _ hsp).symm.trans hv]
  rw [hidx, read_big (Nat.le_trans hsmall hge)]

theorem execInstr_add_immediate_fail {s : Intcode} {m1 m2 : ParameterMode} {inp : List Int}
    (hsp : s.ip + 3 < s.code.length) :
    ∃ s2, execInstr s (.add m1 m2 .immediate) inp = .fail (.invalidOutputMode .immediate) s2 ∧
      (∀ a, s2.code.getD a 0 = s.code.getD a 0) ∧ s2.ip = s.ip ∧
      s2.relativeBase = s.relativeBase := by
  obtain ⟨v1, s1, ho1, hp1, hip1, hrb1, hl1⟩ :=
    operand_spec s (s.ip + 1) m1 (by omega)
  obtain ⟨v2, s2, ho2, hp2, hip2, hrb2, hl2⟩ :=
    operand_spec s1 (s.ip + 2) m2 (by omega)
  refine ⟨s2, ?_, ?_, ?_, ?_⟩
  · simp only [execInstr]
    rw [ho1]
    dsimp only
    rw [ho2]
    dsimp only
    rw [outputOperand_immediate (show s.ip + 3 < s2.code.length by omega)]
  · intro a; rw [hp2 a, hp1 a]
  · rw [hip2, hip1]
  · rw [hrb2, hrb1]

theorem execInstr_multiply_immediate_fail {s : Intcode} {m1 m2 : ParameterMode} {inp : List Int}
    (hsp : s.ip + 3 < s.code.length) :
    ∃ s2, execInstr s (.multiply m1 m2 .immediate) inp =
        .fail (.invalidOutputMode .immediate) s2 ∧
      (∀ a, s2.code.getD a 0 = s.code.getD a 0) ∧ s2.ip = s.ip ∧
      s2.relativeBase = s.relativeBase := by
  obtain ⟨v1, s1, ho1, hp1, hip1, hrb1, hl1⟩ :=
    operand_spec s (s.ip + 1) m1 (by omega)
  obtain ⟨v2, s2, ho2, hp2, hip2, hrb2, hl2⟩ :=
    operand_spec s1 (s.ip + 2) m2 (by omega)
  refine ⟨s2, ?_, ?_, ?_, ?_⟩
  · simp only [execInstr]
    rw [ho1]
    dsimp only
    rw [ho2]
    dsimp only
    rw [outputOperand_immediate (show s.ip + 3 < s2.code.length by omega)]
  · intro a; rw [hp2 a, hp1 a]
  · rw [hip2, hip1]
  · rw [hrb2, hrb1]

theorem execInstr_lessThan_immediate_fail {s : Intcode} {m1 m2 : ParameterMode} {inp : List Int}
    (hsp : s.ip + 3 < s.code.length) :
    ∃ s2, execInstr s (.lessThan m1 m2 .immediate) inp =
        .fail (.invalidOutputMode .immediate) s2 ∧
      (∀ a, s2.code.getD a 0 = s.code.getD a 0) ∧ s2.ip = s.ip ∧
      s2.relativeBase = s.relativeBase := by
  obtain ⟨v1, s1, ho1, hp1, hip1, hrb1, hl1⟩ :=
    operand_spec s (s.ip + 1) m1 (by omega)
  obtain ⟨v2, s2, ho2, hp2, hip2, hrb2, hl2⟩ :=
    operand_spec s1 (s.ip + 2) m2 (by omega)
  refine ⟨s2, ?_, ?_, ?_, ?_⟩
  · simp only [execInstr]
    rw [ho1]
    dsimp only
    rw [ho2]
    dsimp only
    rw [outputOperand_immediate (show s.ip + 3 < s2.code.length by omega)]
  · intro a; rw [hp2 a, hp1 a]
  · rw [hip2, hip1]
  · rw [hrb2, hrb1]

theorem execInstr_equal_immediate_fail {s : Intcode} {m1 m2 : ParameterMode} {inp : List Int}
    (hsp : s.ip + 3 < s.code.length) :
    ∃ s2, execInstr s (.equal m1 m2 .immediate) inp =
        .fail (.invalidOutputMode .immediate) s2 ∧
      (∀ a, s2.code.getD a 0 = s.code.getD a 0) ∧ s2.ip = s.ip ∧
      s2.relativeBase = s.relativeBase := by
  obtain ⟨v1, s1, ho1, hp1, hip1, hrb1, hl1⟩ :=
    operand_spec s (s.ip + 1) m1 (by omega)
  obtain ⟨v2, s2, ho2, hp2, hip2, hrb2, hl2⟩ :=
    operand_spec s1 (s.ip + 2) m2 (by omega)
  refine ⟨s2, ?_, ?_, ?_, ?_⟩
  · simp only [execInstr]
    rw [ho1]
    dsimp only
    rw [ho2]
    dsimp only
    rw [outputOperand_immediate (show s.ip + 3 < s2.code.length by omega)]
  · intro a; rw [hp2 a, hp1 a]
  · rw [hip2, hip1]
  · rw [hrb2, hrb1]

theorem execInstr_input_immediate_fail {s : Intcode} {x : Int} {rest : List Int}
    (hsp : s.ip + 1 < s.code.length) :
    execInstr s (.input .immediate) (x :: rest) =
      .fail (.invalidOutputMode .immediate) s := by
  simp only [execInstr]
  rw [outputOperand_immediate hsp]

/-! ## Claims -/

/-- C1: if the decode/execute loop reaches an Input instruction when every
input value has been consumed, the step suspends without executing it: the
state (instruction pointer, memory, relative base) is returned unchanged
and `run` returns `halted = false` (Suspended) with the state untouched;
conversely a suspension can only arise at an Input instruction with an
exhausted input queue, and a run that returns unhalted stops with its
instruction pointer at an Input opcode. -/
theorem intcode_suspends_exactly_at_input :
    (∀ (s : Intcode) (m : ParameterMode),
        decodeOpcode (s.code.getD s.ip 0) = .ok (.input m) →
        step s [] = .suspend s) ∧
    (∀ (s s' : Intcode) (inp : List Int),
        step s inp = .suspend s' →
        s' = s ∧ inp = [] ∧
          ∃ m, decodeOpcode (s.code.getD s.ip 0) = .ok (.input m)) ∧
    (∀ (f : Nat) (s : Intcode) (inp out : List Int) (s' : Intcode),
        run f s inp = .ok out false s' →
        ∃ m, decodeOpcode (s'.code.getD s'.ip 0) = .ok (.input m)) ∧
    (∀ (f : Nat) (s : Intcode) (m : ParameterMode),
        decodeOpcode (s.code.getD s.ip 0) = .ok (.input m) →
        run (f + 1) s [] = .ok [] false s) := by
  refine ⟨?_, ?_, ?_, ?_⟩
  · intro s m hdec
    exact step_suspend_iff.mpr ⟨rfl, rfl, m, hdec⟩
  · intro s s' inp h
    exact step_suspend_iff.mp h
  · intro f s inp out s' h
    exact run_suspended_at_input h
  · intro f s m hdec
    exact run_succ_suspend (step_suspend_iff.mpr ⟨rfl, rfl, m, hdec⟩)

/-- C1 witness: the two-cell program `3,0` with no input suspends
immediately with its state untouched. -/
theorem intcode_suspends_exactly_at_input_witness :
    decodeOpcode ((⟨[3, 0], 0, 0⟩ : Intcode).code.getD 0 0) =
      .ok (.input .position) ∧
    step ⟨[3, 0], 0, 0⟩ [] = .suspend ⟨[3, 0], 0, 0⟩ ∧
    run 5 ⟨[3, 0], 0, 0⟩ [] = .ok [] false ⟨[3, 0], 0, 0⟩ :=
  ⟨by decide, intcode_suspends_exactly_at_input.1 ⟨[3, 0], 0, 0⟩ .position (by decide),
   intcode_suspends_exactly_at_input.2.2.2 4 ⟨[3, 0], 0, 0⟩ .position (by decide)⟩

/-- C6: `read` and `write` never index out of bounds for any address `A`:
the tape is grown with zeros through index `A` first (so the final index
is in bounds), the length afterwards is at least `A + 1`, a read of an
extended (never-written) cell returns 0, and a write stores `v` at `A`. -/
theorem memory_growth_invariant (s : Intcode) (A : Nat) (v : Int) :
    A < (memGrow s.code A).length ∧
    A + 1 ≤ (s.read A).2.code.length ∧
    A + 1 ≤ (s.write A v).code.length ∧
    (s.read A).1 = s.code.getD A 0 ∧
    (s.code.length ≤ A →
      (s.read A).2.code = s.code ++ List.replicate (A + 1 - s.code.length) 0) ∧
    (s.code.length ≤ A → (s.read A).1 = 0) ∧
    (s.write A v).code.getD A 0 = v := by
  refine ⟨(memGrow_length s.code A).1, (memGrow_length s.code A).1, ?_, read_fst s A,
    ?_, ?_, write_getD_self⟩
  · rw [Intcode.write]
    dsimp only
    rw [List.length_set]
    exact (memGrow_length s.code A).1
  · intro h
    rw [read_big h]
  · intro h
    rw [read_big h]

/-- C6 witness: reading address 3 of the one-cell tape `[5]` grows it to
`[5, 0, 0, 0]` and returns 0; writing 9 there stores 9 with length 4. -/
theorem memory_growth_invariant_witness :
    (⟨[5], 0, 0⟩ : Intcode).code.length ≤ 3 ∧
    (Intcode.read ⟨[5], 0, 0⟩ 3).1 = 0 ∧
    (Intcode.read ⟨[5], 0, 0⟩ 3).2.code =
      [5] ++ List.replicate (3 + 1 - 1) 0 ∧
    (Intcode.write ⟨[5], 0, 0⟩ 3 9).code.getD 3 0 = 9 ∧
    3 + 1 ≤ (Intcode.write ⟨[5], 0, 0⟩ 3 9).code.length :=
  ⟨by decide,
   (memory_growth_invariant ⟨[5], 0, 0⟩ 3 9).2.2.2.2.2.1 (by decide),
   (memory_growth_invariant ⟨[5], 0, 0⟩ 3 9).2.2.2.2.1 (by decide),
   (memory_growth_invariant ⟨[5], 0, 0⟩ 3 9).2.2.2.2.2.2,
   (memory_growth_invariant ⟨[5], 0, 0⟩ 3 9).2.2.1⟩

/-- C9: the parameter slots of an instruction are fetched by indexing the
tape directly, so a recognized instruction whose parameter slot lies past
the end of the tape makes `run` panic with an out-of-bounds index rather
than read the slot as 0: the single-cell program `4` (Output) panics, as
does the single-cell program `3` (Input) when an input value is
available. -/
theorem parameter_fetch_out_of_bounds_panics :
    run 1 ⟨[4], 0, 0⟩ [] = .panic ∧ run 1 ⟨[3], 0, 0⟩ [1] = .panic := by decide

/-- C3 counterexample: the raw value 1004 has opcode 4 (Output, arity 1)
and mode digits `10`; the claim predicts it decodes as Output in Position
mode, but the decoder converts the whole quotient `1004 / 100 = 10` as a
single mode digit and fails with `InvalidOpcode(1004)`. -/
theorem decode_1004_errors :
    decodeOpcode 1004 = .error (.invalidOpcode 1004) ∧
    decodeOpcode 1004 ≠ .ok (.output .position) := by decide

/-- C3 amended: for the two- and three-parameter opcodes (1, 2, 5, 6, 7, 8)
the decoder assigns parameter `i` the digit `(value / 100 / 10^(i-1)) % 10`
and ignores digits beyond position `k`; but for the one-parameter opcodes
(3, 4, 9) the entire quotient `value / 100` is converted as the single
mode, so any nonzero digit beyond position 1 makes decoding fail with
`InvalidOpcode` (e.g. 1004 is an error, not Output/Position). -/
theorem decode_mode_digits_amended :
    (∀ (v : Int) (m1 m2 m3 : ParameterMode),
        v.tmod 100 = 1 →
        parameterModeOfInt ((v.tdiv 100).tmod 10) = .ok m1 →
        parameterModeOfInt (((v.tdiv 100).tdiv 10).tmod 10) = .ok m2 →
        parameterModeOfInt (((v.tdiv 100).tdiv 100).tmod 10) = .ok m3 →
        decodeOpcode v = .ok (.add m1 m2 m3)) ∧
    (∀ (v : Int) (m1 m2 m3 : ParameterMode),
        v.tmod 100 = 2 →
        parameterModeOfInt ((v.tdiv 100).tmod 10) = .ok m1 →
        parameterModeOfInt (((v.tdiv 100).tdiv 10).tmod 10) = .ok m2 →
        parameterModeOfInt (((v.tdiv 100).tdiv 100).tmod 10) = .ok m3 →
        decodeOpcode v = .ok (.multiply m1 m2 m3)) ∧
    (∀ (v : Int) (m1 m2 m3 : ParameterMode),
        v.tmod 100 = 7 →
        parameterModeOfInt ((v.tdiv 100).tmod 10) = .ok m1 →
        parameterModeOfInt (((v.tdiv 100).tdiv 10).tmod 10) = .ok m2 →
        parameterModeOfInt (((v.tdiv 100).tdiv 100).tmod 10) = .ok m3 →
        decodeOpcode v = .ok (.lessThan m1 m2 m3)) ∧
    (∀ (v : Int) (m1 m2 m3 : ParameterMode),
        v.tmod 100 = 8 →
        parameterModeOfInt ((v.tdiv 100).tmod 10) = .ok m1 →
        parameterModeOfInt (((v.tdiv 100).tdiv 10).tmod 10) = .ok m2 →
        parameterModeOfInt (((v.tdiv 100).tdiv 100).tmod 10) = .ok m3 →
        decodeOpcode v = .ok (.equal m1 m2 m3)) ∧
    (∀ (v : Int) (m1 m2 : ParameterMode),
        v.tmod 100 = 5 →
        parameterModeOfInt ((v.tdiv 100).tmod 10) = .ok m1 →
        parameterModeOfInt (((v.tdiv 100).tdiv 10).tmod 10) = .ok m2 →
        decodeOpcode v = .ok (.jumpIfTrue m1 m2)) ∧
    (∀ (v : Int) (m1 m2 : ParameterMode),
        v.tmod 100 = 6 →
        parameterModeOfInt ((v.tdiv 100).tmod 10) = .ok m1 →
        parameterModeOfInt (((v.tdiv 100).tdiv 10).tmod 10) = .ok m2 →
        decodeOpcode v = .ok (.jumpIfFalse m1 m2)) ∧
    (∀ (v : Int) (m : ParameterMode),
        v.tmod 100 = 3 →
        parameterModeOfInt (v.tdiv 100) = .ok m →
        decodeOpcode v = .ok (.input m)) ∧
    (∀ (v : Int) (m : ParameterMode),
        v.tmod 100 = 4 →
        parameterModeOfInt (v.tdiv 100) = .ok m →
        decodeOpcode v = .ok (.output m)) ∧
    (∀ (v : Int) (m : ParameterMode),
        v.tmod 100 = 9 →
        parameterModeOfInt (v.tdiv 100) = .ok m →
        decodeOpcode v = .ok (.relativeBaseOffset m)) ∧
    (∀ (v : Int) (e : IntErr),
        v.tmod 100 = 4 →
        parameterModeOfInt (v.tdiv 100) = .error e →
        decodeOpcode v = .error (.invalidOpcode v)) := by
  refine ⟨?_, ?_, ?_, ?_, ?_, ?_, ?_, ?_, ?_, ?_⟩
  · intro v m1 m2 m3 ht h1 h2 h3
    simp [decodeOpcode, modes3, ht, h1, h2, h3]
  · intro v m1 m2 m3 ht h1 h2 h3
    simp [decodeOpcode, modes3, ht, h1, h2, h3]
  · intro v m1 m2 m3 ht h1 h2 h3
    simp [decodeOpcode, modes3, ht, h1, h2, h3]
  · intro v m1 m2 m3 ht h1 h2 h3
    simp [decodeOpcode, modes3, ht, h1, h2, h3]
  · intro v m1 m2 ht h1 h2
    simp [decodeOpcode, modes2, ht, h1, h2]
  · intro v m1 m2 ht h1 h2
    simp [decodeOpcode, modes2, ht, h1, h2]
  · intro v m ht h1
    simp [decodeOpcode, ht, h1]
  · intro v m ht h1
    simp [decodeOpcode, ht, h1]
  · intro v m ht h1
    simp [decodeOpcode, ht, h1]
  · intro v e ht h1
    simp [decodeOpcode, ht, h1]

/-- C3 amended witness: 21102 decodes as Multiply with modes
(Immediate, Immediate, Relative); 2004 has opcode 4 but mode quotient 20,
which is an `InvalidOpcode` error. -/
theorem decode_mode_digits_amended_witness :
    ((21102 : Int).tmod 100 = 2 ∧
      parameterModeOfInt (((21102 : Int).tdiv 100).tmod 10) = .ok .immediate ∧
      parameterModeOfInt ((((21102 : Int).tdiv 100).tdiv 10).tmod 10) = .ok .immediate ∧
      parameterModeOfInt ((((21102 : Int).tdiv 100).tdiv 100).tmod 10) = .ok .relative ∧
      (2004 : Int).tmod 100 = 4 ∧
      parameterModeOfInt ((2004 : Int).tdiv 100) = .error (.invalidParameterMode 20)) ∧
    decodeOpcode 21102 = .ok (.multiply .immediate .immediate .relative) ∧
    decodeOpcode 2004 = .error (.invalidOpcode 2004) :=
  ⟨by decide,
   decode_mode_digits_amended.2.1 21102 .immediate .immediate .relative
     (by decide) (by decide) (by decide) (by decide),
   decode_mode_digits_amended.2.2.2.2.2.2.2.2.2 2004 (.invalidParameterMode 20)
     (by decide) (by decide)⟩

/-- C4 counterexample: the program `103,0` decodes to an Input instruction
whose write parameter mode is Immediate, yet a run with an exhausted input
queue returns a suspended success (`halted = false`), not the
`InvalidOutputMode` error the claim requires: suspension is checked before
the write-mode check. -/
theorem immediate_write_input_suspends_counterexample :
    decodeOpcode ((103 : Int)) = .ok (.input .immediate) ∧
    run 5 ⟨[103, 0], 0, 0⟩ [] = .ok [] false ⟨[103, 0], 0, 0⟩ := by decide

/-- C4 amended: an instruction with an Immediate write parameter (Add,
Multiply, LessThan, Equals, or Input with an input value available) fails
with `InvalidOutputMode` when executed, leaving every memory cell, the
instruction pointer and the relative base unchanged; but an Input
instruction whose input queue is exhausted suspends before the write-mode
check, so no error is reported on that path. -/
theorem immediate_write_mode_rejected_amended :
    (∀ (s : Intcode) (m1 m2 : ParameterMode) (inp : List Int),
        decodeOpcode (s.code.getD s.ip 0) = .ok (.add m1 m2 .immediate) →
        s.ip + 3 < s.code.length →
        ∃ s2, step s inp = .fail (.invalidOutputMode .immediate) s2 ∧
          (∀ a, s2.code.getD a 0 = s.code.getD a 0) ∧
          s2.ip = s.ip ∧ s2.relativeBase = s.relativeBase) ∧
    (∀ (s : Intcode) (m1 m2 : ParameterMode) (inp : List Int),
        decodeOpcode (s.code.getD s.ip 0) = .ok (.multiply m1 m2 .immediate) →
        s.ip + 3 < s.code.length →
        ∃ s2, step s inp = .fail (.invalidOutputMode .immediate) s2 ∧
          (∀ a, s2.code.getD a 0 = s.code.getD a 0) ∧
          s2.ip = s.ip ∧ s2.relativeBase = s.relativeBase) ∧
    (∀ (s : Intcode) (m1 m2 : ParameterMode) (inp : List Int),
        decodeOpcode (s.code.getD s.ip 0) = .ok (.lessThan m1 m2 .immediate) →
        s.ip + 3 < s.code.length →
        ∃ s2, step s inp = .fail (.invalidOutputMode .immediate) s2 ∧
          (∀ a, s2.code.getD a 0 = s.code.getD a 0) ∧
          s2.ip = s.ip ∧ s2.relativeBase = s.relativeBase) ∧
    (∀ (s : Intcode) (m1 m2 : ParameterMode) (inp : List Int),
        decodeOpcode (s.code.getD s.ip 0) = .ok (.equal m1 m2 .immediate) →
        s.ip + 3 < s.code.length →
        ∃ s2, step s inp = .fail (.invalidOutputMode .immediate) s2 ∧
          (∀ a, s2.code.getD a 0 = s.code.getD a 0) ∧
          s2.ip = s.ip ∧ s2.relativeBase = s.relativeBase) ∧
    (∀ (s : Intcode) (x : Int) (rest : List Int),
        decodeOpcode (s.code.getD s.ip 0) = .ok (.input .immediate) →
        s.ip + 1 < s.code.length →
        step s (x :: rest) = .fail (.invalidOutputMode .immediate) s) ∧
    (∀ s : Intcode,
        decodeOpcode (s.code.getD s.ip 0) = .ok (.input .immediate) →
        step s [] = .suspend s) := by
  refine ⟨?_, ?_, ?_, ?_, ?_, ?_⟩
  · intro s m1 m2 inp hdec hsp
    rw [step_of_decode_ok hdec]
    exact execInstr_add_immediate_fail hsp
  · intro s m1 m2 inp hdec hsp
    rw [step_of_decode_ok hdec]
    exact execInstr_multiply_immediate_fail hsp
  · intro s m1 m2 inp hdec hsp
    rw [step_of_decode_ok hdec]
    exact execInstr_lessThan_immediate_fail hsp
  · intro s m1 m2 inp hdec hsp
    rw [step_of_decode_ok hdec]
    exact execInstr_equal_immediate_fail hsp
  · intro s x rest hdec hsp
    rw [step_of_decode_ok hdec]
    exact execInstr_input_immediate_fail hsp
  · intro s hdec
    exact step_suspend_iff.mpr ⟨rfl, rfl, _, hdec⟩

/-- C4 amended witness: the Add instruction `10001,1,1,0` (write parameter
in Immediate mode) fails with the write-mode error and leaves memory
untouched; the Input instruction `103,0` with empty input suspends. -/
theorem immediate_write_mode_rejected_amended_witness :
    (decodeOpcode ((⟨[10001, 1, 1, 0], 0, 0⟩ : Intcode).code.getD 0 0) =
        .ok (.add .position .position .immediate) ∧
      (0 : Nat) + 3 < 4 ∧
      decodeOpcode ((⟨[103, 0], 0, 0⟩ : Intcode).code.getD 0 0) =
        .ok (.input .immediate)) ∧
    (∃ s2, step ⟨[10001, 1, 1, 0], 0, 0⟩ [] = .fail (.invalidOutputMode .immediate) s2 ∧
      (∀ a, s2.code.getD a 0 = (⟨[10001, 1, 1, 0], 0, 0⟩ : Intcode).code.getD a 0) ∧
      s2.ip = 0 ∧ s2.relativeBase = 0) ∧
    step ⟨[103, 0], 0, 0⟩ [] = .suspend ⟨[103, 0], 0, 0⟩ :=
  ⟨⟨by decide, by decide, by decide⟩,
   immediate_write_mode_rejected_amended.1 ⟨[10001, 1, 1, 0], 0, 0⟩
     .position .position [] (by decide) (by decide),
   immediate_write_mode_rejected_amended.2.2.2.2.2 ⟨[103, 0], 0, 0⟩ (by decide)⟩

/-- C5 counterexample: the Output instruction `4,-1` reads through a
negative Position-mode pointer.  No error or trap is raised: the `as usize`
cast wraps -1 to 2^64 - 1 and the step succeeds, growing the tape to that
huge address — negative resolved addresses are reinterpreted by integer
wraparound, not rejected. -/
theorem negative_address_wraps_counterexample :
    usizeOfInt (-1) = 18446744073709551615 ∧
    step ⟨[4, -1], 0, 0⟩ [] =
      .cont [0] 0
        ⟨[4, -1] ++ List.replicate (usizeOfInt (-1) + 1 - 2) 0, 2, 0⟩ := by
  constructor
  · decide
  · exact (step_output_position_neg
      (show (⟨[4, -1], 0, 0⟩ : Intcode).code.getD (⟨[4, -1], 0, 0⟩ : Intcode).ip 0 = 4
        by decide)
      (by decide)
      (show (⟨[4, -1], 0, 0⟩ : Intcode).code.getD ((⟨[4, -1], 0, 0⟩ : Intcode).ip + 1) 0 = -1
        by decide)
      (by decide) (by decide) (by decide)).1

/-- C5 amended: a Position-mode parameter with a negative value `v` is not
rejected: the `as usize` cast wraps it to the address `(2^64 + v)`, which
is at least 2^63, and execution proceeds, reading 0 from the zero-grown
tape at that address (shown for an Output instruction, whose step then
succeeds with the wrapped-address growth). -/
theorem negative_address_wraparound_amended :
    ∀ (s : Intcode) (inp : List Int) (v : Int),
      s.code.getD s.ip 0 = 4 →
      s.ip + 1 < s.code.length →
      s.code.getD (s.ip + 1) 0 = v →
      v < 0 → -(2 ^ 63) ≤ v → s.code.length ≤ 2 ^ 63 →
      usizeOfInt v = (2 ^ 64 + v).toNat ∧ 2 ^ 63 ≤ usizeOfInt v ∧
      step s inp =
        .cont [0] 0
          { code := s.code ++ List.replicate (usizeOfInt v + 1 - s.code.length) 0
            ip := s.ip + 2
            relativeBase := s.relativeBase } := by
  intro s inp v hop hsp hv hneg hlo hsmall
  obtain ⟨hstep, heq, hge⟩ := step_output_position_neg hop hsp hv hneg hlo hsmall
  exact ⟨heq, hge, hstep⟩

/-- C5 amended witness: the program `4,-7,99` at relative base 0 resolves
its Position-mode pointer -7 to the wrapped address 2^64 - 7 and the step
succeeds. -/
theorem negative_address_wraparound_amended_witness :
    ((⟨[4, -7, 99], 0, 0⟩ : Intcode).code.getD (⟨[4, -7, 99], 0, 0⟩ : Intcode).ip 0 = 4 ∧
      (⟨[4, -7, 99], 0, 0⟩ : Intcode).ip + 1 < 3 ∧
      (⟨[4, -7, 99], 0, 0⟩ : Intcode).code.getD
        ((⟨[4, -7, 99], 0, 0⟩ : Intcode).ip + 1) 0 = -7 ∧
      (-7 : Int) < 0 ∧ -(2 ^ 63) ≤ (-7 : Int) ∧
      (⟨[4, -7, 99], 0, 0⟩ : Intcode).code.length ≤ 2 ^ 63) ∧
    (usizeOfInt (-7) = ((2 : Int) ^ 64 + -7).toNat ∧ 2 ^ 63 ≤ usizeOfInt (-7) ∧
      step ⟨[4, -7, 99], 0, 0⟩ [] =
        .cont [0] 0
          { code := [4, -7, 99] ++
              List.replicate (usizeOfInt (-7) + 1 -
                (⟨[4, -7, 99], 0, 0⟩ : Intcode).code.length) 0
            ip := (⟨[4, -7, 99], 0, 0⟩ : Intcode).ip + 2
            relativeBase := 0 }) :=
  ⟨⟨by decide, by decide, by decide, by decide, by decide, by decide⟩,
   negative_address_wraparound_amended ⟨[4, -7, 99], 0, 0⟩ [] (-7)
     (by decide) (by decide) (by decide) (by decide) (by decide) (by decide)⟩

/-- C8: driving a processor through successive `run` calls, one input
chunk per call and resuming after each suspended return (`runSeq`),
produces exactly the same result — concatenated outputs, halted flag and
final processor state — as a single `run` given all the inputs at once
(with enough fuel), for every program, start state and chunking. -/
theorem suspend_resume_equivalence :
    ∀ (f : Nat) (s : Intcode) (c : List Int) (cs : List (List Int)) (r : RunOut),
      runSeq f s (c :: cs) = r → r ≠ .outOfFuel →
      run (f * (c :: cs).length) s (c :: cs).flatten = r :=
  fun _ _ _ _ _ h hr => runSeq_join h hr

/-- C8 witness: the echo program `3,0,3,1,4,0,4,1,99` run incrementally
with inputs `[10]` then `[20]` (suspending in between) gives the same
outputs `[10, 20]` and final state as one run with `[10, 20]`. -/
theorem suspend_resume_equivalence_witness :
    (runSeq 20 ⟨[3, 0, 3, 1, 4, 0, 4, 1, 99], 0, 0⟩ [[10], [20]] =
        .ok [10, 20] true ⟨[10, 20, 3, 1, 4, 0, 4, 1, 99], 8, 0⟩ ∧
      (.ok [10, 20] true ⟨[10, 20, 3, 1, 4, 0, 4, 1, 99], 8, 0⟩ : RunOut) ≠
        .outOfFuel) ∧
    run (20 * 2) ⟨[3, 0, 3, 1, 4, 0, 4, 1, 99], 0, 0⟩ [10, 20] =
      .ok [10, 20] true ⟨[10, 20, 3, 1, 4, 0, 4, 1, 99], 8, 0⟩ :=
  ⟨⟨by decide, by decide⟩,
   suspend_resume_equivalence 20 ⟨[3, 0, 3, 1, 4, 0, 4, 1, 99], 0, 0⟩ [10] [[20]]
     (.ok [10, 20] true ⟨[10, 20, 3, 1, 4, 0, 4, 1, 99], 8, 0⟩)
     (by decide) (by decide)⟩

/-- C2 counterexample: in `emitNet`, instance 0's queue is empty at the
start of the round, and during the round it emits the packet `(1, 7, 8)`
(a nonempty output, delivered to queue 1) — yet its quiet counter is
incremented to 1: the orchestrator counts the round as quiet without
consulting the emitted output, contradicting the claim's "AND the
instance emitted no output that round". -/
theorem quiet_counted_despite_output_counterexample :
    run 10 (emitNet.computers.getD 0 default) (roundInput emitNet 0) =
      .ok [1, 7, 8] true ⟨[104, 1, 104, 7, 104, 8, 99], 6, 0⟩ ∧
    (processInstance 10 emitNet 0).map
      (fun st => (st.idle.getD 0 0, st.queues.getD 1 [])) = some (1, [7, 8]) := by
  decide

/-- C2 amended: a round is counted as quiet for an instance exactly when
the first element of its queue at the end of the round is the sentinel
`-1` — which holds whenever the queue was empty at the start of the round
(the sentinel was injected), regardless of any output the instance
emitted; a round whose queue starts with a genuine packet head (≠ -1)
resets the counter to 0; an instance that is already quiet (counter ≥ 2)
with an empty queue is skipped, its state unchanged; and the NAT phase
runs only when every one of the 50 counters is at least 2. -/
theorem idle_counting_amended :
    (∀ (fuel : Nat) (st : NetState) (i : Nat),
        st.queues.getD i [] = [] → 2 ≤ st.idle.getD i 0 →
        processInstance fuel st i = some st) ∧
    (∀ (fuel : Nat) (st : NetState) (i : Nat) (out : List Int) (hb : Bool)
        (s' : Intcode) (qs2 : List (List Int)) (nx2 ny2 : Int) (st' : NetState),
        st.queues.length = COMPUTERS → st.idle.length = COMPUTERS → i < COMPUTERS →
        st.queues.getD i [] = [] → st.idle.getD i 0 < 2 →
        run fuel (st.computers.getD i default) (roundInput st i) = .ok out hb s' →
        distribute out (st.queues.set i (roundInput st i), st.natx, st.naty) =
          some (qs2, nx2, ny2) →
        processInstance fuel st i = some st' →
        st'.idle.getD i 0 = st.idle.getD i 0 + 1) ∧
    (∀ (fuel : Nat) (st : NetState) (i : Nat) (h0 : Int) (out : List Int) (hb : Bool)
        (s' : Intcode) (qs2 : List (List Int)) (nx2 ny2 : Int) (st' : NetState),
        st.queues.length = COMPUTERS → st.idle.length = COMPUTERS → i < COMPUTERS →
        (st.queues.getD i []).head? = some h0 → h0 ≠ -1 →
        run fuel (st.computers.getD i default) (roundInput st i) = .ok out hb s' →
        distribute out (st.queues.set i (roundInput st i), st.natx, st.naty) =
          some (qs2, nx2, ny2) →
        processInstance fuel st i = some st' →
        st'.idle.getD i 0 = 0) ∧
    (∀ (r fuel : Nat) (st st' : NetState) (sent : List Int),
        fullRound fuel st = some st' →
        st'.idle.all (fun c => 2 ≤ c) = false →
        netLoop (r + 1) fuel st sent = netLoop r fuel st' sent) := by
  refine ⟨?_, ?_, ?_, ?_⟩
  · intro fuel st i hq hi
    exact processInstance_skip hq hi
  · intro fuel st i out hb s' qs2 nx2 ny2 st' hlen hlenI hi hq hidle hrun hdist hpi
    have hskip : ¬((st.queues.getD i []).isEmpty = true ∧ 2 ≤ st.idle.getD i 0) := by
      rintro ⟨-, h2⟩
      omega
    have hhead := distributed_head_of_empty hlen hi hq hdist
    have := processInstance_idle_count hlenI hi hskip hrun hdist hhead hpi
    simpa using this
  · intro fuel st i h0 out hb s' qs2 nx2 ny2 st' hlen hlenI hi hq hh0 hrun hdist hpi
    have hne : st.queues.getD i [] ≠ [] := by
      intro hbad
      rw [hbad] at hq
      cases hq
    have hskip : ¬((st.queues.getD i []).isEmpty = true ∧ 2 ≤ st.idle.getD i 0) := by
      rintro ⟨he, -⟩
      exact hne (List.isEmpty_iff.mp he)
    have hhead := distributed_head_of_nonempty hlen hi hq hdist
    have := processInstance_idle_count hlenI hi hskip hrun hdist hhead hpi
    simpa [hh0] using this
  · intro r fuel st st' sent h hni
    exact netLoop_not_idle h hni

/-- C2 amended witness: in `emitNet` (instance 0's queue empty, counter 0),
the round that emits `(1, 7, 8)` still increments instance 0's quiet
counter to 1. -/
theorem idle_counting_amended_witness :
    (emitNet.queues.length = COMPUTERS ∧ emitNet.idle.length = COMPUTERS ∧
      0 < COMPUTERS ∧ emitNet.queues.getD 0 [] = [] ∧ emitNet.idle.getD 0 0 < 2 ∧
      run 10 (emitNet.computers.getD 0 default) (roundInput emitNet 0) =
        .ok [1, 7, 8] true ⟨[104, 1, 104, 7, 104, 8, 99], 6, 0⟩ ∧
      distribute [1, 7, 8] (emitNet.queues.set 0 (roundInput emitNet 0),
          emitNet.natx, emitNet.naty) =
        some (((List.replicate COMPUTERS ([] : List Int)).set 0 [-1]).set 1 [7, 8], 0, 0) ∧
      processInstance 10 emitNet 0 = some emitNetAfter) ∧
    emitNetAfter.idle.getD 0 0 = emitNet.idle.getD 0 0 + 1 :=
  ⟨⟨by decide, by decide, by decide, by decide, by decide, by decide, by decide, by decide⟩,
   idle_counting_amended.2.1 10 emitNet 0 [1, 7, 8] true
     ⟨[104, 1, 104, 7, 104, 8, 99], 6, 0⟩
     (((List.replicate COMPUTERS ([] : List Int)).set 0 [-1]).set 1 [7, 8]) 0 0
     emitNetAfter
     (by decide) (by decide) (by decide) (by decide) (by decide) (by decide)
     (by decide) (by decide)⟩

/-- C7 counterexample: in the 50-instance network of `nat255Prog` every
instance sends `(0, 0)` to the NAT once and halts; the network goes idle
with the remembered Y equal to the initial `prev_naty = 0`, and the
simulation terminates (printing 0) although the NAT never delivered any
packet — the list of Y values actually sent is empty, so no "Y value was
sent twice in a row". -/
theorem nat_terminates_without_two_wakes_counterexample :
    netLoop 5 10 (initNet nat255Prog) [] = .terminated 0 [] := by decide

/-- C7 amended: each packet delivered to address 255 overwrites the NAT's
remembered `(x, y)`; after a round in which every quiet counter is ≥ 2,
the loop first compares the remembered Y against the Y recorded at the
previous injection (`prev_naty`, initially 0): if they are equal it
terminates at once — without delivering the packet again, and possibly
without any previous injection at all — and otherwise it appends
`(natx, naty)` to queue 0 and records `naty`. -/
theorem nat_gateway_amended :
    (∀ (x y : Int) (rest : List Int) (qs : List (List Int)) (nx ny : Int),
        distribute (255 :: x :: y :: rest) (qs, nx, ny) = distribute rest (qs, x, y)) ∧
    (∀ (r fuel : Nat) (st st' : NetState) (sent : List Int),
        fullRound fuel st = some st' →
        st'.idle.all (fun c => 2 ≤ c) = true →
        st'.naty = st'.prevNaty →
        netLoop (r + 1) fuel st sent = .terminated st'.naty sent) ∧
    (∀ (r fuel : Nat) (st st' : NetState) (sent : List Int),
        fullRound fuel st = some st' →
        st'.idle.all (fun c => 2 ≤ c) = true →
        st'.naty ≠ st'.prevNaty →
        netLoop (r + 1) fuel st sent =
          netLoop r fuel
            { st' with
              queues := st'.queues.set 0 (st'.queues.getD 0 [] ++ [st'.natx, st'.naty])
              prevNaty := st'.naty }
            (sent ++ [st'.naty])) := by
  refine ⟨?_, ?_, ?_⟩
  · intro x y rest qs nx ny
    rw [distribute, if_neg (by decide), if_pos rfl]
  · intro r fuel st st' sent h hall heq
    exact netLoop_terminate h hall heq
  · intro r fuel st st' sent h hall hne
    exact netLoop_inject h hall hne

/-- C7 amended witness: on the already-idle network `idleNet 7`
(remembered Y = 7 = `prev_naty`) the loop terminates immediately without
injecting; on `idleNet 3` (7 ≠ 3) it injects `(5, 7)` into queue 0 and
records 7; and `distribute` lets a later 255-packet overwrite an earlier
one. -/
theorem nat_gateway_amended_witness :
    (fullRound 10 (idleNet 7) = some (idleNet 7) ∧
      (idleNet 7).idle.all (fun c => 2 ≤ c) = true ∧
      (idleNet 7).naty = (idleNet 7).prevNaty ∧
      fullRound 10 (idleNet 3) = some (idleNet 3) ∧
      (idleNet 3).idle.all (fun c => 2 ≤ c) = true ∧
      (idleNet 3).naty ≠ (idleNet 3).prevNaty) ∧
    distribute (255 :: 9 :: 9 :: [255, 1, 2]) ([[0]], 0, 0) =
      distribute [255, 1, 2] ([[0]], 9, 9) ∧
    netLoop 1 10 (idleNet 7) [] = .terminated (idleNet 7).naty [] ∧
    netLoop 1 10 (idleNet 3) [] =
      netLoop 0 10
        { idleNet 3 with
          queues := (idleNet 3).queues.set 0
            ((idleNet 3).queues.getD 0 [] ++ [(idleNet 3).natx, (idleNet 3).naty])
          prevNaty := (idleNet 3).naty }
        ([] ++ [(idleNet 3).naty]) :=
  ⟨⟨by decide, by decide, by decide, by decide, by decide, by decide⟩,
   nat_gateway_amended.1 9 9 [255, 1, 2] [[0]] 0 0,
   nat_gateway_amended.2.1 0 10 (idleNet 7) (idleNet 7) []
     (by decide) (by decide) (by decide),
   nat_gateway_amended.2.2 0 10 (idleNet 3) (idleNet 3) []
     (by decide) (by decide) (by decide)⟩

/-- C10: after instance `i`'s run in a round, its pending-input queue is
unconditionally cleared — so every packet `i` addressed to itself during
that run is discarded — while for every other instance `j` the packets
addressed to `j` are appended to `j`'s queue in emission order. -/
theorem queue_cleared_and_packets_routed :
    ∀ (fuel : Nat) (st : NetState) (i : Nat) (out : List Int) (hb : Bool)
      (s' : Intcode) (qs2 : List (List Int)) (nx2 ny2 hv : Int) (st' : NetState),
      st.queues.length = COMPUTERS → i < COMPUTERS →
      ¬((st.queues.getD i []).isEmpty = true ∧ 2 ≤ st.idle.getD i 0) →
      run fuel (st.computers.getD i default) (roundInput st i) = .ok out hb s' →
      distribute out (st.queues.set i (roundInput st i), st.natx, st.naty) =
        some (qs2, nx2, ny2) →
      (qs2.getD i []).head? = some hv →
      processInstance fuel st i = some st' →
      st'.queues.getD i [] = [] ∧
        ∀ j, j < COMPUTERS → j ≠ i →
          st'.queues.getD j [] = st.queues.getD j [] ++ packetsFor j out :=
  fun _ _ _ _ _ _ _ _ _ _ _ hlen hi hskip hrun hdist hhead hpi =>
    processInstance_queues hlen hi hskip hrun hdist hhead hpi

/-- C10 witness: in `emitNet`, instance 0 emits `(1, 7, 8)`; after its
round, queue 0 is cleared and queue 1 holds exactly the appended packet
`[7, 8]`. -/
theorem queue_cleared_and_packets_routed_witness :
    (emitNet.queues.length = COMPUTERS ∧ 0 < COMPUTERS ∧
      ¬((emitNet.queues.getD 0 []).isEmpty = true ∧ 2 ≤ emitNet.idle.getD 0 0) ∧
      run 10 (emitNet.computers.getD 0 default) (roundInput emitNet 0) =
        .ok [1, 7, 8] true ⟨[104, 1, 104, 7, 104, 8, 99], 6, 0⟩ ∧
      distribute [1, 7, 8] (emitNet.queues.set 0 (roundInput emitNet 0),
          emitNet.natx, emitNet.naty) =
        some (((List.replicate COMPUTERS ([] : List Int)).set 0 [-1]).set 1 [7, 8], 0, 0) ∧
      ((((List.replicate COMPUTERS ([] : List Int)).set 0 [-1]).set 1
          [7, 8]).getD 0 []).head? = some (-1) ∧
      processInstance 10 emitNet 0 = some emitNetAfter) ∧
    (emitNetAfter.queues.getD 0 [] = [] ∧
      ∀ j, j < COMPUTERS → j ≠ 0 →
        emitNetAfter.queues.getD j [] = emitNet.queues.getD j [] ++ packetsFor j [1, 7, 8]) :=
  ⟨⟨by decide, by decide, by decide, by decide, by decide, by decide, by decide⟩,
   queue_cleared_and_packets_routed 10 emitNet 0 [1, 7, 8] true
     ⟨[104, 1, 104, 7, 104, 8, 99], 6, 0⟩
     (((List.replicate COMPUTERS ([] : List Int)).set 0 [-1]).set 1 [7, 8]) 0 0 (-1)
     emitNetAfter
     (by decide) (by decide) (by decide) (by decide) (by decide) (by decide) (by decide)⟩
